import Mathlib

/-!
# Verification of the InvoiceChaser field-extraction and email-generation engine

Shallow embedding of `apps/mcp-server/api/index.ts` (the `invoicechaser_prepare`
tool). The JavaScript regular expressions are embedded as explicit scanning
functions over `List Char` that reproduce the JS engine's semantics: the
pattern is tried at every position from left to right, alternatives are tried
in written order, and greedy quantifiers backtrack. Character classes follow
the ECMAScript definitions restricted to the code points the patterns can
touch (`\w` = `[A-Za-z0-9_]`, `\d` = `[0-9]`, `\s` = the ECMAScript
whitespace set). `String.prototype.toUpperCase`/`toLowerCase` are modelled
for ASCII, which covers every string the engine compares case-insensitively.
-/

namespace InvoiceChaser

/-- ECMAScript `\w` (word character): `[A-Za-z0-9_]`. -/
def isWordChar (c : Char) : Bool := c.isAlphanum || c == '_'

/-- Word-ness of an optional character (`none` = string edge, not a word char). -/
def isWordOpt : Option Char → Bool
  | none => false
  | some c => isWordChar c

/-- ECMAScript `\s` (whitespace) character set. -/
def isJsSpace (c : Char) : Bool :=
  ['\t', '\n', '\x0b', '\x0c', '\r', ' ', ' ', ' ',
   ' ', ' ', ' ', ' ', ' ', ' ', ' ',
   ' ', ' ', ' ', ' ', ' ', ' ', ' ',
   ' ', '　', '﻿'].contains c

/-- ASCII model of lower-casing a character (JS `toLowerCase` on ASCII). -/
def lowChar (c : Char) : Char :=
  if 65 ≤ c.toNat ∧ c.toNat ≤ 90 then Char.ofNat (c.toNat + 32) else c

/-- ASCII model of upper-casing a character (JS `toUpperCase` on ASCII). -/
def upChar (c : Char) : Char :=
  if 97 ≤ c.toNat ∧ c.toNat ≤ 122 then Char.ofNat (c.toNat - 32) else c

/-- ASCII model of `String.prototype.toUpperCase`. -/
def jsToUpperCase (s : String) : String := String.mk (s.data.map upChar)

/-- JS regex matching driver: try the matcher at every position of the input,
left to right, keeping track of the previous character for `\b` tests.
The matcher is also attempted at the end-of-string position. -/
def scanFor (m : Option Char → List Char → Option β) :
    Option Char → List Char → Option β
  | prev, [] => m prev []
  | prev, c :: rest =>
    match m prev (c :: rest) with
    | some r => some r
    | none => scanFor m (some c) rest

/-- Match a (lowercase ASCII) literal case-insensitively at the head of the
input; return the remainder on success. -/
def matchLitCI : List Char → List Char → Option (List Char)
  | [], s => some s
  | _ :: _, [] => none
  | l :: ls, c :: cs => if lowChar c = l then matchLitCI ls cs else none

/-- Remainders after a greedy `p*` run, in backtracking preference order
(longest consumed first, down to consuming nothing). -/
def starSplits (p : Char → Bool) (s : List Char) : List (List Char) :=
  let n := (s.takeWhile p).length
  (List.range (n + 1)).map (fun i => s.drop (n - i))

/-- Remainders after a greedy `p+` run (at least one character), longest first. -/
def plusSplits (p : Char → Bool) (s : List Char) : List (List Char) :=
  let n := (s.takeWhile p).length
  (List.range n).map (fun i => s.drop (n - i))

/-! ## `parseMoney` — `index.ts` lines 152–161

Currency: first match of `\b(USD|EUR|GBP|INR|AUD|CAD)\b` (case-insensitive),
upper-cased. Amount: first match of
`\b(\d{1,3}(?:,\d{3})*(?:\.\d{2})?|\d+(?:\.\d{2})?)\b`, with commas stripped. -/

def currencyCodes : List String := ["USD", "EUR", "GBP", "INR", "AUD", "CAD"]

/-- Match `\b(USD|EUR|GBP|INR|AUD|CAD)\b/i` at the current position
(all codes are 3 letters, so the two `\b` tests reduce to the neighbours
not being word characters). The JS code returns `match[1].toUpperCase()`. -/
def matchCurrencyAt (prev : Option Char) (s : List Char) : Option String :=
  match s with
  | a :: b :: c :: rest =>
    let code := String.mk [upChar a, upChar b, upChar c]
    if !(isWordOpt prev) && decide (code ∈ currencyCodes) && !(isWordOpt rest.head?)
    then some code
    else none
  | _ => none

/-- Tail of the amount pattern: `(?:\.\d{2})?` (greedy, backtracking) followed
by `\b`; `acc` is the portion matched so far (always ending in a digit). -/
def fracBound (acc : List Char) (s : List Char) : Option (List Char) :=
  match s with
  | '.' :: a :: b :: rest =>
    if a.isDigit && b.isDigit && !(isWordOpt rest.head?) then
      some (acc ++ ['.', a, b])
    else if !(isWordOpt s.head?) then some acc else none
  | _ => if !(isWordOpt s.head?) then some acc else none

/-- `(?:,\d{3})*` (greedy, backtracking) followed by `fracBound`. -/
def groupStar (acc : List Char) : List Char → Option (List Char)
  | ',' :: a :: b :: c :: rest =>
    if a.isDigit && b.isDigit && c.isDigit then
      match groupStar (acc ++ [',', a, b, c]) rest with
      | some r => some r
      | none => fracBound acc (',' :: a :: b :: c :: rest)
    else fracBound acc (',' :: a :: b :: c :: rest)
  | s => fracBound acc s

/-- One choice of the greedy `\d{1,3}`: take exactly `k` digits, then run the
rest of the first alternative. -/
def amountTryK (s : List Char) (k : Nat) : Option (List Char) :=
  let d := s.take k
  if d.length = k && d.all Char.isDigit then groupStar d (s.drop k) else none

/-- First alternative `\d{1,3}(?:,\d{3})*(?:\.\d{2})?` followed by `\b`:
`\d{1,3}` greedily tries 3, 2, then 1 digits. -/
def matchAmountAlt1 (s : List Char) : Option (List Char) :=
  match amountTryK s 3 with
  | some r => some r
  | none =>
    match amountTryK s 2 with
    | some r => some r
    | none => amountTryK s 1

/-- Second alternative `\d+(?:\.\d{2})?` followed by `\b`: `\d+` greedily
tries the whole digit run, backing off one digit at a time. -/
def matchAmountAlt2Aux (s : List Char) : Nat → Option (List Char)
  | 0 => none
  | k + 1 =>
    match fracBound (s.take (k + 1)) (s.drop (k + 1)) with
    | some r => some r
    | none => matchAmountAlt2Aux s k

def matchAmountAlt2 (s : List Char) : Option (List Char) :=
  matchAmountAlt2Aux s (s.takeWhile Char.isDigit).length

/-- Match the whole amount pattern at the current position. Both alternatives
begin with `\d` (a word character), so the leading `\b` holds exactly when
the previous character is not a word character. -/
def matchAmountAt (prev : Option Char) (s : List Char) : Option (List Char) :=
  if isWordOpt prev then none
  else
    match matchAmountAlt1 s with
    | some r => some r
    | none => matchAmountAlt2 s

/-- Result of `parseMoney` (source field names). -/
structure MoneyResult where
  amount : Option String
  currency : Option String
  deriving DecidableEq, Repr

/-- `parseMoney` — `index.ts` lines 152–161. -/
def parseMoney (text : String) : MoneyResult :=
  { currency := scanFor matchCurrencyAt none text.data
    amount := (scanFor matchAmountAt none text.data).map
      (fun l => String.mk (l.filter (fun c => c ≠ ','))) }

/-! ## `parseInvoiceNumber` — `index.ts` lines 163–166

`\b(?:invoice\s*(?:no\.|#|number)?|inv\s*(?:no\.|#)?)\s*[:#]?\s*([A-Za-z0-9-]+)\b/i` -/

/-- Character class `[A-Za-z0-9-]` of the captured identifier. -/
def isIdChar (c : Char) : Bool := c.isAlphanum || c == '-'

/-- Capture `([A-Za-z0-9-]+)` greedily, then require `\b`; backtracks by
shortening the capture. Returns the captured token. -/
def matchIdGo (s : List Char) : Nat → Option (List Char)
  | 0 => none
  | k + 1 =>
    let tok := s.take (k + 1)
    match tok.getLast? with
    | some lastc =>
      if isWordChar lastc != isWordOpt ((s.drop (k + 1)).head?) then some tok
      else matchIdGo s k
    | none => none

def matchId (s : List Char) : Option (List Char) :=
  matchIdGo s (s.takeWhile isIdChar).length

/-- `[:#]?` (greedy): candidate remainders in preference order. -/
def colonHashOpt (s : List Char) : List (List Char) :=
  match s with
  | c :: rest => if c == ':' || c == '#' then [rest, s] else [s]
  | [] => [s]

/-- Optional literal-alternation group (e.g. `(?:no\.|#|number)?`): candidate
remainders, alternatives in written order, then the absent case. -/
def optLabel (alts : List (List Char)) (s : List Char) : List (List Char) :=
  (alts.filterMap (fun a => matchLitCI a s)) ++ [s]

/-- `\s*[:#]?\s*([A-Za-z0-9-]+)\b` with full backtracking. -/
def matchTail (s : List Char) : Option (List Char) :=
  (starSplits isJsSpace s).findSome? (fun s1 =>
    (colonHashOpt s1).findSome? (fun s2 =>
      (starSplits isJsSpace s2).findSome? (fun s3 => matchId s3)))

/-- First alternative `invoice\s*(?:no\.|#|number)?` then the tail. -/
def branchInvoice (s : List Char) : Option (List Char) :=
  match matchLitCI ['i', 'n', 'v', 'o', 'i', 'c', 'e'] s with
  | none => none
  | some s1 =>
    (starSplits isJsSpace s1).findSome? (fun s2 =>
      (optLabel [['n', 'o', '.'], ['#'], ['n', 'u', 'm', 'b', 'e', 'r']] s2).findSome?
        matchTail)

/-- Second alternative `inv\s*(?:no\.|#)?` then the tail. -/
def branchInv (s : List Char) : Option (List Char) :=
  match matchLitCI ['i', 'n', 'v'] s with
  | none => none
  | some s1 =>
    (starSplits isJsSpace s1).findSome? (fun s2 =>
      (optLabel [['n', 'o', '.'], ['#']] s2).findSome? matchTail)

/-- Match the invoice-number pattern at the current position. Both
alternatives begin with the letter `i`, so the leading `\b` holds exactly
when the previous character is not a word character. -/
def matchInvNumAt (prev : Option Char) (s : List Char) : Option (List Char) :=
  if isWordOpt prev then none
  else
    match branchInvoice s with
    | some r => some r
    | none => branchInv s

/-- `parseInvoiceNumber` — `index.ts` lines 163–166. -/
def parseInvoiceNumber (text : String) : Option String :=
  (scanFor matchInvNumAt none text.data).map String.mk

/-! ## `parseDueDate` — `index.ts` lines 168–183 -/

/-- Match `\b(20\d{2}-\d{2}-\d{2})\b` at the current position. -/
def matchIsoDateAt (prev : Option Char) (s : List Char) : Option (List Char) :=
  match s with
  | '2' :: '0' :: y1 :: y2 :: '-' :: m1 :: m2 :: '-' :: d1 :: d2 :: rest =>
    if !(isWordOpt prev) && y1.isDigit && y2.isDigit && m1.isDigit && m2.isDigit
        && d1.isDigit && d2.isDigit && !(isWordOpt rest.head?)
    then some ['2', '0', y1, y2, '-', m1, m2, '-', d1, d2]
    else none
  | _ => none

/-- `\d{1,2}` (greedy): candidate (matched digits, remainder) pairs,
two digits preferred over one. -/
def take12 (s : List Char) : List (List Char × List Char) :=
  match s with
  | a :: b :: rest =>
    if a.isDigit && b.isDigit then [([a, b], rest), ([a], b :: rest)]
    else if a.isDigit then [([a], b :: rest)]
    else []
  | [a] => if a.isDigit then [([a], [])] else []
  | [] => []

/-- Match `\b(\d{1,2})\/(\d{1,2})\/(20\d{2})\b` at the current position,
returning the three captured groups (month, day, year). -/
def matchUsDateAt (prev : Option Char) (s : List Char) :
    Option (List Char × List Char × List Char) :=
  if isWordOpt prev then none
  else
    (take12 s).findSome? (fun g1 =>
      match g1.2 with
      | '/' :: s2 =>
        (take12 s2).findSome? (fun g2 =>
          match g2.2 with
          | '/' :: '2' :: '0' :: y1 :: y2 :: rest =>
            if y1.isDigit && y2.isDigit && !(isWordOpt rest.head?) then
              some (g1.1, g2.1, ['2', '0', y1, y2])
            else none
          | _ => none)
      | _ => none)

/-- JS `padStart(2, '0')` on a 1–2 character string. -/
def padStart2 (l : List Char) : List Char :=
  if l.length = 1 then '0' :: l else l

/-- `parseDueDate` — `index.ts` lines 168–183: ISO-like dates first, then
US `M/D/YYYY` converted to `YYYY-MM-DD` with zero padding. -/
def parseDueDate (text : String) : Option String :=
  match scanFor matchIsoDateAt none text.data with
  | some iso => some (String.mk iso)
  | none =>
    match scanFor matchUsDateAt none text.data with
    | some g =>
      some (String.mk (g.2.2 ++ ['-'] ++ padStart2 g.1 ++ ['-'] ++ padStart2 g.2.1))
    | none => none

/-! ## `parseVendor` — `index.ts` lines 185–191 -/

/-- JS `text.split(/\r?\n/)`: a separator is `"\r\n"` or a bare `"\n"`;
a lone `"\r"` is not a separator. -/
def splitLinesJs : List Char → List (List Char)
  | [] => [[]]
  | '\r' :: '\n' :: rest => [] :: splitLinesJs rest
  | '\n' :: rest => [] :: splitLinesJs rest
  | c :: rest =>
    match splitLinesJs rest with
    | l :: ls => (c :: l) :: ls
    | [] => [[c]]

/-- JS `String.prototype.trim` (strips the ECMAScript whitespace set). -/
def jsTrim (l : List Char) : List Char :=
  ((l.dropWhile isJsSpace).reverse.dropWhile isJsSpace).reverse

/-- Test `/^invoice\b/i`: the line starts with "invoice" (case-insensitive)
followed by a word boundary. -/
def startsWithInvoiceCI (l : List Char) : Bool :=
  match matchLitCI ['i', 'n', 'v', 'o', 'i', 'c', 'e'] l with
  | some rest => !(isWordOpt rest.head?)
  | none => false

/-- `parseVendor` — `index.ts` lines 185–191: first non-blank trimmed line,
rejected if it begins with "invoice", truncated to 120 characters. -/
def parseVendor (text : String) : Option String :=
  match ((splitLinesJs text.data).map jsTrim).filter (fun l => !l.isEmpty) with
  | [] => none
  | firstLine :: _ =>
    if startsWithInvoiceCI firstLine then none
    else some (String.mk (firstLine.take 120))

/-! ## `parsePaymentTerms` — `index.ts` lines 193–198 -/

/-- `\d{1,3}` (greedy): candidate (matched digits, remainder) pairs,
longest first. -/
def digits13 (s : List Char) : List (List Char × List Char) :=
  let n := min 3 (s.takeWhile Char.isDigit).length
  (List.range n).map (fun i => (s.take (n - i), s.drop (n - i)))

/-- Match `\bnet\s*(\d{1,3})\b/i` at the current position, returning the
captured digits. The pattern starts with the word character `n`, so the
leading `\b` holds exactly when the previous character is not a word
character; the captured group ends in a digit, so the trailing `\b` holds
exactly when the following character is not a word character. -/
def matchNetAt (prev : Option Char) (s : List Char) : Option (List Char) :=
  if isWordOpt prev then none
  else
    match matchLitCI ['n', 'e', 't'] s with
    | none => none
    | some s1 =>
      (starSplits isJsSpace s1).findSome? (fun s2 =>
        (digits13 s2).findSome? (fun g =>
          if !(isWordOpt g.2.head?) then some g.1 else none))

/-- Match `\bdue\s+on\s+receipt\b/i` at the current position. -/
def matchDueOnReceiptAt (prev : Option Char) (s : List Char) : Option Unit :=
  if isWordOpt prev then none
  else
    match matchLitCI ['d', 'u', 'e'] s with
    | none => none
    | some s1 =>
      (plusSplits isJsSpace s1).findSome? (fun s2 =>
        match matchLitCI ['o', 'n'] s2 with
        | none => none
        | some s3 =>
          (plusSplits isJsSpace s3).findSome? (fun s4 =>
            match matchLitCI ['r', 'e', 'c', 'e', 'i', 'p', 't'] s4 with
            | none => none
            | some s5 => if !(isWordOpt s5.head?) then some () else none))

/-- `parsePaymentTerms` — `index.ts` lines 193–198. -/
def parsePaymentTerms (text : String) : Option String :=
  match scanFor matchNetAt none text.data with
  | some g => some ("Net " ++ String.mk g)
  | none =>
    if (scanFor matchDueOnReceiptAt none text.data).isSome then
      some "Due on receipt"
    else none

/-! ## Date arithmetic — `index.ts` lines 200–208

`safeDateFromIso` wraps JS `new Date(iso)`. It is modelled here for
date-only ISO strings `YYYY-MM-DD`, the only shape the engine ever feeds it
(`parseDueDate` output) and the shape the tool's `today` argument documents
("ISO date like 2025-12-23"): such a string parses to UTC midnight of that
calendar day, and an out-of-range month or day yields an invalid date
(`null`). Other date formats are outside the scope of the claims and map
to `none`. -/

def isLeapYear (y : Int) : Bool :=
  (y % 4 == 0 && y % 100 != 0) || y % 400 == 0

def daysInMonth (y m : Int) : Int :=
  if m = 2 then (if isLeapYear y then 29 else 28)
  else if m = 4 ∨ m = 6 ∨ m = 9 ∨ m = 11 then 30
  else 31

/-- Days since the Unix epoch of a civil date (proleptic Gregorian). -/
def daysFromCivil (y m d : Int) : Int :=
  let y' := if m ≤ 2 then y - 1 else y
  let era := y'.fdiv 400
  let yoe := y' - era * 400
  let mp := if m > 2 then m - 3 else m + 9
  let doy := (153 * mp + 2).fdiv 5 + d - 1
  let doe := yoe * 365 + yoe.fdiv 4 - yoe.fdiv 100 + doy
  era * 146097 + doe - 719468

def charDigit (c : Char) : Int := Int.ofNat (c.toNat - 48)

/-- Parse a date-only ISO string `YYYY-MM-DD` into (year, month, day),
validating the calendar ranges. -/
def parseIsoDateOnly (s : String) : Option (Int × Int × Int) :=
  match s.data with
  | [a, b, c, d, '-', e, f, '-', g, h] =>
    if a.isDigit && b.isDigit && c.isDigit && d.isDigit && e.isDigit
        && f.isDigit && g.isDigit && h.isDigit then
      let y := charDigit a * 1000 + charDigit b * 100 + charDigit c * 10 + charDigit d
      let m := charDigit e * 10 + charDigit f
      let dd := charDigit g * 10 + charDigit h
      if 1 ≤ m ∧ m ≤ 12 ∧ 1 ≤ dd ∧ dd ≤ daysInMonth y m then some (y, m, dd)
      else none
    else none
  | _ => none

/-- `safeDateFromIso` — `index.ts` lines 205–208, as the timestamp in
milliseconds since the Unix epoch (UTC midnight of the parsed day). -/
def safeDateFromIso (s : String) : Option Int :=
  (parseIsoDateOnly s).map (fun t => daysFromCivil t.1 t.2.1 t.2.2 * 86400000)

/-- `daysBetween` — `index.ts` lines 200–203:
`Math.floor((later - earlier) / 86400000)`. -/
def daysBetween (earlier later : Int) : Int :=
  (later - earlier).fdiv 86400000

/-! ## `buildEmails` — `index.ts` lines 210–236 -/

structure BuildEmailsOpts where
  vendor : Option String
  invoiceNumber : Option String
  amount : Option String
  currency : String
  dueDate : Option String
  daysOverdue : Option Int
  deriving DecidableEq, Repr

structure FollowUpEmails where
  friendly : String
  neutral : String
  firm : String
  deriving DecidableEq, Repr

/-- JS string truthiness for `string | null` values: `null` and `""` are falsy. -/
def strTruthy : Option String → Bool
  | none => false
  | some s => s != ""

/-- `buildEmails` — `index.ts` lines 210–236. -/
def buildEmails (opts : BuildEmailsOpts) : FollowUpEmails :=
  let vendor := opts.vendor.getD "there"
  let inv :=
    if strTruthy opts.invoiceNumber then "Invoice " ++ opts.invoiceNumber.getD ""
    else "the invoice"
  let amt :=
    if strTruthy opts.amount then opts.currency ++ " " ++ opts.amount.getD ""
    else opts.currency ++ " [amount]"
  let due :=
    if strTruthy opts.dueDate then "due on " ++ opts.dueDate.getD ""
    else "now due"
  let overdue :=
    match opts.daysOverdue with
    | some n => if n > 0 then " (" ++ toString n ++ " days overdue)" else ""
    | none => ""
  let subject := inv ++ " - Payment reminder"
  { friendly := "Subject: " ++ subject ++ "\n\nHi " ++ vendor ++
      ",\n\nHope you’re doing well. Just a quick reminder that " ++ inv ++
      " for " ++ amt ++ " was " ++ due ++ overdue ++
      ".\n\nCould you confirm the payment status and the expected payment date? If you need anything from my side (PO, banking details, or a copy of the invoice), I’m happy to help.\n\nThanks so much,\n[Your Name]\n"
    neutral := "Subject: " ++ subject ++ "\n\nHi " ++ vendor ++
      ",\n\nFollowing up on " ++ inv ++ " for " ++ amt ++ ", which was " ++
      due ++ overdue ++
      ".\n\nPlease share an update on payment status and the planned payment date.\n\nBest regards,\n[Your Name]\n"
    firm := "Subject: " ++ inv ++ " - Overdue payment\n\nHi " ++ vendor ++
      ",\n\n" ++ inv ++ " for " ++ amt ++ " is " ++ due ++ overdue ++
      ".\n\nPlease arrange payment immediately or confirm the exact payment date today. If payment has already been sent, please reply with the remittance details.\n\nRegards,\n[Your Name]\n" }

/-! ## `toolInvoicechaserPrepare` — `index.ts` lines 238–301

The validated arguments (`invoicechaserPrepareArgsSchema`, lines 145–150).
`tone` is accepted by the schema but never read by the tool body. The JS
code uses `new Date()` (wall clock) when `today` is absent or empty; that
wall-clock timestamp is passed in explicitly as `nowMs`, making the
dependency on it visible. -/

inductive Tone where
  | friendly
  | neutral
  | firm
  deriving DecidableEq, Repr

structure PrepareArgs where
  invoiceText : String
  currency : Option String := none
  tone : Option Tone := none
  today : Option String := none
  deriving DecidableEq, Repr

structure ExtractionResult where
  vendor : Option String
  amount : Option String
  currency : String
  invoiceNumber : Option String
  dueDate : Option String
  daysOverdue : Option Int
  paymentTerms : Option String
  deriving DecidableEq, Repr

structure PreparedResult where
  summary : List String
  extracted : ExtractionResult
  followUpEmails : FollowUpEmails
  nextSteps : List String
  redFlags : List String
  deriving DecidableEq, Repr

/-- Line 246: `(args.currency ?? money.currency ?? 'USD').toUpperCase()`. -/
def currencyOf (args : PrepareArgs) : String :=
  jsToUpperCase (args.currency.getD ((parseMoney args.invoiceText).currency.getD "USD"))

/-- Line 249: `args.today ? safeDateFromIso(args.today) : new Date()`
(an empty `today` string is falsy and also falls back to the wall clock). -/
def resolveToday (today : Option String) (nowMs : Int) : Option Int :=
  match today with
  | some s => if s != "" then safeDateFromIso s else some nowMs
  | none => some nowMs

/-- Line 250: `dueDate ? safeDateFromIso(dueDate) : null`. -/
def dueMsOf (text : String) : Option Int :=
  match parseDueDate text with
  | some ds => if ds != "" then safeDateFromIso ds else none
  | none => none

/-- Lines 252–256: days overdue, clamped at zero, absent unless both dates
are available. -/
def daysOverdueOf (args : PrepareArgs) (nowMs : Int) : Option Int :=
  match resolveToday args.today nowMs, dueMsOf args.invoiceText with
  | some t, some d =>
    some (if daysBetween d t > 0 then daysBetween d t else 0)
  | _, _ => none

/-- Lines 258–262: the three summary lines. -/
def summaryOf (args : PrepareArgs) (nowMs : Int) : List String :=
  let invoiceNumber := parseInvoiceNumber args.invoiceText
  let amount := (parseMoney args.invoiceText).amount
  let dueDate := parseDueDate args.invoiceText
  ["Prepared follow-up emails for " ++
     (if strTruthy invoiceNumber then "invoice " ++ invoiceNumber.getD ""
      else "an invoice") ++ ".",
   "Detected amount: " ++
     (if strTruthy amount then currencyOf args ++ " " ++ amount.getD ""
      else "unknown") ++ ".",
   "Due date: " ++ dueDate.getD "unknown" ++
     (match daysOverdueOf args nowMs with
      | some n => " (days overdue: " ++ toString n ++ ")"
      | none => "") ++ "."]

/-- Lines 264–269: the fixed four-step escalation ladder. -/
def nextStepsList : List String :=
  ["Send the friendly email today if you have an ongoing relationship.",
   "If no response within 2 business days, send the neutral follow-up.",
   "If still unpaid after 5 business days, send the firm email and request a payment date.",
   "If overdue continues, consider pausing service and escalating per contract terms."]

/-- Lines 271–275: one fixed warning per missing field, in source order. -/
def redFlagsOf (text : String) : List String :=
  (if strTruthy (parseInvoiceNumber text) then [] else ["Invoice number not detected."])
    ++ (if strTruthy (parseMoney text).amount then [] else ["Invoice amount not detected."])
    ++ (if strTruthy (parseDueDate text) then [] else ["Due date not detected."])
    ++ (if strTruthy (parsePaymentTerms text) then [] else ["Payment terms not detected."])

/-- `toolInvoicechaserPrepare` — `index.ts` lines 238–301. -/
def toolInvoicechaserPrepare (args : PrepareArgs) (nowMs : Int) : PreparedResult :=
  { summary := summaryOf args nowMs
    extracted :=
      { vendor := parseVendor args.invoiceText
        amount := (parseMoney args.invoiceText).amount
        currency := currencyOf args
        invoiceNumber := parseInvoiceNumber args.invoiceText
        dueDate := parseDueDate args.invoiceText
        daysOverdue := daysOverdueOf args nowMs
        paymentTerms := parsePaymentTerms args.invoiceText }
    followUpEmails := buildEmails
      { vendor := parseVendor args.invoiceText
        invoiceNumber := parseInvoiceNumber args.invoiceText
        amount := (parseMoney args.invoiceText).amount
        currency := currencyOf args
        dueDate := parseDueDate args.invoiceText
        daysOverdue := daysOverdueOf args nowMs }
    nextSteps := nextStepsList
    redFlags := redFlagsOf args.invoiceText }

/-! ## General helper lemmas -/

theorem string_ne_empty_of_data {s : String} (h : s.data ≠ []) : s ≠ "" := by
  intro hc
  exact h (by rw [hc])

theorem strTruthy_some {s : String} (h : s ≠ "") : strTruthy (some s) = true := by
  simp [strTruthy, bne_iff_ne, h]

theorem scanFor_eq_some {β : Type} {m : Option Char → List Char → Option β} :
    ∀ {prev : Option Char} {s : List Char} {r : β},
      scanFor m prev s = some r → ∃ p t, m p t = some r := by
  intro prev s
  induction s generalizing prev with
  | nil => intro r h; exact ⟨prev, [], h⟩
  | cons c rest ih =>
    intro r h
    rw [scanFor] at h
    rcases hm : m prev (c :: rest) with _ | v
    · simp only [hm] at h
      exact ih h
    · simp only [hm] at h
      exact ⟨prev, c :: rest, hm.trans h⟩

/-- The three email bodies each start with fixed template text, so they are
never empty. -/
theorem buildEmails_bodies (o : BuildEmailsOpts) :
    (buildEmails o).friendly ≠ "" ∧ (buildEmails o).neutral ≠ "" ∧
      (buildEmails o).firm ≠ "" := by
  refine ⟨string_ne_empty_of_data ?_, string_ne_empty_of_data ?_,
    string_ne_empty_of_data ?_⟩ <;>
    simp only [buildEmails, String.data_append, ne_eq, List.append_eq_nil] <;>
    intro h <;>
    simp at h

theorem mk_ne_empty {l : List Char} (h : l ≠ []) : String.mk l ≠ "" := by
  intro hc
  have hc' : String.mk l = String.mk [] := hc
  injection hc' with hd
  exact h hd

theorem take_all_of_le_takeWhile {p : Char → Bool} :
    ∀ {s : List Char} {j : Nat}, j ≤ (s.takeWhile p).length →
      (s.take j).all p = true := by
  intro s
  induction s with
  | nil => intro j _; simp
  | cons c cs ih =>
    intro j hj
    cases j with
    | zero => simp
    | succ k =>
      rw [List.takeWhile_cons] at hj
      by_cases hp : p c
      · simp only [hp, if_true, List.length_cons, Nat.succ_le_succ_iff] at hj
        simp [List.take_succ_cons, hp, ih hj]
      · simp [hp] at hj

theorem exists_head_of_takeWhile_pos {p : Char → Bool} {s : List Char}
    (h : 1 ≤ (s.takeWhile p).length) : ∃ c cs, s = c :: cs ∧ p c = true := by
  cases s with
  | nil => simp at h
  | cons c cs =>
    rw [List.takeWhile_cons] at h
    by_cases hp : p c
    · exact ⟨c, cs, rfl, hp⟩
    · simp [hp] at h

/-! ## Shape lemmas for the extractors -/

theorem fracBound_extends {acc s r : List Char} (h : fracBound acc s = some r) :
    ∃ ext, r = acc ++ ext := by
  unfold fracBound at h
  split at h
  · split at h
    · exact ⟨_, (Option.some.inj h).symm⟩
    · split at h
      · exact ⟨[], by simp [← Option.some.inj h]⟩
      · cases h
  · split at h
    · exact ⟨[], by simp [← Option.some.inj h]⟩
    · cases h

theorem groupStar_extends : ∀ {acc s r : List Char},
    groupStar acc s = some r → ∃ ext, r = acc ++ ext := by
  intro acc s
  induction acc, s using groupStar.induct with
  | case1 acc a b c rest hd r0 hrec ih =>
    intro r h
    rw [groupStar, if_pos hd, hrec] at h
    have h' : some r0 = some r := h
    obtain ⟨ext, hext⟩ := ih hrec
    exact ⟨[',', a, b, c] ++ ext, by
      rw [← Option.some.inj h', hext]; simp⟩
  | case2 acc a b c rest hd hrec ih =>
    intro r h
    rw [groupStar, if_pos hd, hrec] at h
    exact fracBound_extends h
  | case3 acc a b c rest hd =>
    intro r h
    rw [groupStar, if_neg hd] at h
    exact fracBound_extends h
  | case4 s acc hs =>
    intro r h
    rw [groupStar.eq_def] at h
    split at h
    · exact ((hs _ _ _ _ rfl)).elim
    · exact fracBound_extends h

theorem amountTryK_shape {s : List Char} {k : Nat} {r : List Char}
    (h : amountTryK s k = some r) (hk : 0 < k) :
    ∃ c cs, r = c :: cs ∧ c.isDigit = true := by
  simp only [amountTryK] at h
  split at h
  · next hcond =>
    obtain ⟨ext, hext⟩ := groupStar_extends h
    simp only [Bool.and_eq_true, decide_eq_true_eq] at hcond
    rcases hd : s.take k with _ | ⟨c, cs⟩
    · rw [hd] at hcond
      simp at hcond
      omega
    · rw [hd] at hext hcond
      refine ⟨c, cs ++ ext, by simp [hext], ?_⟩
      have := hcond.2
      simp [List.all_cons] at this
      exact this.1
  · cases h

theorem matchAmountAlt1_shape {s r : List Char} (h : matchAmountAlt1 s = some r) :
    ∃ c cs, r = c :: cs ∧ c.isDigit = true := by
  unfold matchAmountAlt1 at h
  split at h
  · next heq =>
    cases h
    exact amountTryK_shape heq (by omega)
  · split at h
    · next heq =>
      cases h
      exact amountTryK_shape heq (by omega)
    · exact amountTryK_shape h (by omega)

theorem matchAmountAlt2Aux_shape : ∀ {k : Nat} {s r : List Char},
    k ≤ (s.takeWhile Char.isDigit).length →
    matchAmountAlt2Aux s k = some r → ∃ c cs, r = c :: cs ∧ c.isDigit = true := by
  intro k
  induction k with
  | zero => intro s r _ h; cases h
  | succ n ih =>
    intro s r hk h
    rw [matchAmountAlt2Aux] at h
    rcases hf : fracBound (s.take (n + 1)) (s.drop (n + 1)) with _ | r0
    · rw [hf] at h
      exact ih (by omega) h
    · rw [hf] at h
      obtain ⟨ext, hext⟩ := fracBound_extends hf
      obtain ⟨c, cs, rfl, hc⟩ :=
        exists_head_of_takeWhile_pos (p := Char.isDigit) (s := s) (by omega)
      refine ⟨c, cs.take n ++ ext, ?_, hc⟩
      have hr : r = r0 := (Option.some.inj h).symm
      simp [hr, hext, List.take_succ_cons]

theorem matchAmountAt_shape {p : Option Char} {s r : List Char}
    (h : matchAmountAt p s = some r) : ∃ c cs, r = c :: cs ∧ c.isDigit = true := by
  unfold matchAmountAt at h
  split at h
  · cases h
  · split at h
    · next heq =>
      cases h
      exact matchAmountAlt1_shape heq
    · exact matchAmountAlt2Aux_shape (Nat.le_refl _) h

theorem parseMoney_amount_ne {t a : String} (h : (parseMoney t).amount = some a) :
    a ≠ "" := by
  have h' : (scanFor matchAmountAt none t.data).map
      (fun l => String.mk (l.filter (fun c => c ≠ ','))) = some a := h
  rw [Option.map_eq_some'] at h'
  obtain ⟨l, hl, hfl⟩ := h'
  obtain ⟨p, u, hm⟩ := scanFor_eq_some hl
  obtain ⟨c, cs, rfl, hc⟩ := matchAmountAt_shape hm
  have hcne : c ≠ ',' := by
    intro hcc
    rw [hcc] at hc
    exact absurd hc (by decide)
  rw [← hfl, List.filter_cons, if_pos (by simp [hcne])]
  exact mk_ne_empty (by simp)

theorem matchCurrencyAt_mem : ∀ {p : Option Char} {s : List Char} {r : String},
    matchCurrencyAt p s = some r → r ∈ currencyCodes := by
  intro p s r h
  rcases s with _ | ⟨a, s⟩
  · simp [matchCurrencyAt] at h
  rcases s with _ | ⟨b, s⟩
  · simp [matchCurrencyAt] at h
  rcases s with _ | ⟨c, s⟩
  · simp [matchCurrencyAt] at h
  simp only [matchCurrencyAt] at h
  split at h
  · next hcond =>
    simp only [Bool.and_eq_true, decide_eq_true_eq] at hcond
    rw [← Option.some.inj h]
    exact hcond.1.2
  · cases h

theorem parseMoney_currency_mem {t r : String}
    (h : (parseMoney t).currency = some r) : r ∈ currencyCodes := by
  have h' : scanFor matchCurrencyAt none t.data = some r := h
  obtain ⟨p, u, hm⟩ := scanFor_eq_some h'
  exact matchCurrencyAt_mem hm

theorem currencyCodes_ne_empty {r : String} (h : r ∈ currencyCodes) : r ≠ "" := by
  simp only [currencyCodes, List.mem_cons, List.not_mem_nil, or_false] at h
  rcases h with rfl | rfl | rfl | rfl | rfl | rfl <;> decide

theorem matchIdGo_ne : ∀ {k : Nat} {s r : List Char},
    matchIdGo s k = some r → r ≠ [] := by
  intro k
  induction k with
  | zero => intro s r h; cases h
  | succ n ih =>
    intro s r h
    simp only [matchIdGo] at h
    split at h
    · rename_i lastc heq
      split at h
      · rw [← Option.some.inj h]
        intro hc
        rw [hc] at heq
        simp at heq
      · exact ih h
    · cases h

theorem matchTail_ne {s r : List Char} (h : matchTail s = some r) : r ≠ [] := by
  unfold matchTail at h
  obtain ⟨s1, _, h1⟩ := List.exists_of_findSome?_eq_some h
  obtain ⟨s2, _, h2⟩ := List.exists_of_findSome?_eq_some h1
  obtain ⟨s3, _, h3⟩ := List.exists_of_findSome?_eq_some h2
  exact matchIdGo_ne h3

theorem branchInvoice_ne {s r : List Char} (h : branchInvoice s = some r) :
    r ≠ [] := by
  unfold branchInvoice at h
  split at h
  · cases h
  · obtain ⟨s2, _, h2⟩ := List.exists_of_findSome?_eq_some h
    obtain ⟨s3, _, h3⟩ := List.exists_of_findSome?_eq_some h2
    exact matchTail_ne h3

theorem branchInv_ne {s r : List Char} (h : branchInv s = some r) : r ≠ [] := by
  unfold branchInv at h
  split at h
  · cases h
  · obtain ⟨s2, _, h2⟩ := List.exists_of_findSome?_eq_some h
    obtain ⟨s3, _, h3⟩ := List.exists_of_findSome?_eq_some h2
    exact matchTail_ne h3

theorem matchInvNumAt_ne {p : Option Char} {s r : List Char}
    (h : matchInvNumAt p s = some r) : r ≠ [] := by
  unfold matchInvNumAt at h
  split at h
  · cases h
  · split at h
    · next heq =>
      cases h
      exact branchInvoice_ne heq
    · exact branchInv_ne h

theorem parseInvoiceNumber_ne {t n : String}
    (h : parseInvoiceNumber t = some n) : n ≠ "" := by
  have h' : (scanFor matchInvNumAt none t.data).map String.mk = some n := h
  rw [Option.map_eq_some'] at h'
  obtain ⟨l, hl, rfl⟩ := h'
  obtain ⟨p, u, hm⟩ := scanFor_eq_some hl
  exact mk_ne_empty (matchInvNumAt_ne hm)

/-- The normalized shape of a due date string: `20YY-NN-NN` with digits in
every numeric position (the year prefix `20` comes from both source
patterns). This does not require the month/day to be in calendar range. -/
def dateShape (s : String) : Bool :=
  match s.data with
  | ['2', '0', a, b, '-', c, d, '-', e, f] =>
    a.isDigit && b.isDigit && c.isDigit && d.isDigit && e.isDigit && f.isDigit
  | _ => false

theorem matchIsoDateAt_shape {p : Option Char} {s r : List Char}
    (h : matchIsoDateAt p s = some r) : dateShape (String.mk r) = true := by
  unfold matchIsoDateAt at h
  split at h
  · split at h
    · next hcond =>
      rw [← Option.some.inj h]
      simp only [Bool.and_eq_true] at hcond
      simp [dateShape, hcond]
    · cases h
  · cases h

theorem take12_mem : ∀ {s : List Char} {g : List Char × List Char},
    g ∈ take12 s → g.1 ≠ [] ∧ g.1.length ≤ 2 ∧ g.1.all Char.isDigit = true := by
  intro s g hg
  rcases s with _ | ⟨a, s⟩
  · simp [take12] at hg
  rcases s with _ | ⟨b, rest⟩
  · by_cases ha : a.isDigit = true
    · simp only [take12, ha, if_pos, List.mem_singleton] at hg
      subst hg
      simp [ha]
    · simp [take12, ha] at hg
  · simp only [take12] at hg
    by_cases hab : (a.isDigit && b.isDigit) = true
    · rw [if_pos hab] at hg
      simp only [List.mem_cons, List.mem_singleton, List.not_mem_nil,
        or_false] at hg
      simp only [Bool.and_eq_true] at hab
      rcases hg with rfl | rfl <;> simp [hab.1, hab.2]
    · rw [if_neg hab] at hg
      by_cases ha : a.isDigit = true
      · rw [if_pos ha] at hg
        simp only [List.mem_singleton] at hg
        subst hg
        simp [ha]
      · rw [if_neg ha] at hg
        simp at hg

theorem matchUsDateAt_shape {p : Option Char} {s : List Char}
    {g : List Char × List Char × List Char} (h : matchUsDateAt p s = some g) :
    (g.1 ≠ [] ∧ g.1.length ≤ 2 ∧ g.1.all Char.isDigit = true) ∧
    (g.2.1 ≠ [] ∧ g.2.1.length ≤ 2 ∧ g.2.1.all Char.isDigit = true) ∧
    ∃ y1 y2, g.2.2 = ['2', '0', y1, y2] ∧ y1.isDigit = true ∧ y2.isDigit = true := by
  unfold matchUsDateAt at h
  split at h
  · cases h
  · obtain ⟨g1, hg1, h1⟩ := List.exists_of_findSome?_eq_some h
    split at h1
    · obtain ⟨g2, hg2, h2⟩ := List.exists_of_findSome?_eq_some h1
      split at h2
      · split at h2
        · next hcond =>
          have t1 := take12_mem hg1
          have t2 := take12_mem hg2
          rw [← Option.some.inj h2]
          simp only [Bool.and_eq_true] at hcond
          exact ⟨t1, t2, _, _, rfl, hcond.1.1, hcond.1.2⟩
        · cases h2
      · cases h2
    · cases h1

theorem padStart2_shape {g : List Char} (h1 : g ≠ []) (h2 : g.length ≤ 2)
    (h3 : g.all Char.isDigit = true) :
    ∃ c d, padStart2 g = [c, d] ∧ c.isDigit = true ∧ d.isDigit = true := by
  unfold padStart2
  rcases g with _ | ⟨a, g⟩
  · exact absurd rfl h1
  rcases g with _ | ⟨b, g⟩
  · simp only [List.all_cons, Bool.and_eq_true] at h3
    exact ⟨'0', a, by simp, by decide, h3.1⟩
  · rcases g with _ | ⟨c, g⟩
    · simp only [List.all_cons, Bool.and_eq_true] at h3
      exact ⟨a, b, by simp, h3.1, h3.2.1⟩
    · simp at h2

theorem parseDueDate_shape {t v : String} (h : parseDueDate t = some v) :
    dateShape v = true := by
  unfold parseDueDate at h
  split at h
  · next heq =>
    rw [← Option.some.inj h]
    obtain ⟨p, u, hm⟩ := scanFor_eq_some heq
    exact matchIsoDateAt_shape hm
  · split at h
    · next g heq =>
      rw [← Option.some.inj h]
      obtain ⟨p, u, hm⟩ := scanFor_eq_some heq
      obtain ⟨hm1, hd1, y1, y2, hy, hy1, hy2⟩ := matchUsDateAt_shape hm
      obtain ⟨c1, c2, hpm, hc1, hc2⟩ := padStart2_shape hm1.1 hm1.2.1 hm1.2.2
      obtain ⟨d1, d2, hpd, hd1d, hd2d⟩ := padStart2_shape hd1.1 hd1.2.1 hd1.2.2
      rw [hy, hpm, hpd]
      simp [dateShape, hy1, hy2, hc1, hc2, hd1d, hd2d]
    · cases h

theorem dateShape_ne_empty {v : String} (h : dateShape v = true) : v ≠ "" := by
  intro hv
  rw [hv] at h
  exact absurd h (by decide)

theorem parseDueDate_ne {t v : String} (h : parseDueDate t = some v) : v ≠ "" :=
  dateShape_ne_empty (parseDueDate_shape h)

theorem parsePaymentTerms_ne {t v : String}
    (h : parsePaymentTerms t = some v) : v ≠ "" := by
  unfold parsePaymentTerms at h
  split at h
  · rw [← Option.some.inj h]
    apply string_ne_empty_of_data
    rw [String.data_append]
    simp
  · split at h
    · rw [← Option.some.inj h]
      decide
    · cases h

theorem parseVendor_ne {t v : String} (h : parseVendor t = some v) : v ≠ "" := by
  unfold parseVendor at h
  split at h
  · cases h
  · next firstLine rest heq =>
    split at h
    · cases h
    · rw [← Option.some.inj h]
      have hmem : firstLine ∈
          ((splitLinesJs t.data).map jsTrim).filter (fun l => !l.isEmpty) := by
        rw [heq]
        exact List.mem_cons_self _ _
      have hne : firstLine ≠ [] := by
        have hb := (List.mem_filter.mp hmem).2
        simp only [Bool.not_eq_true'] at hb
        intro hc
        rw [hc] at hb
        exact absurd hb (by decide)
      apply mk_ne_empty
      rw [Ne, List.take_eq_nil_iff]
      simp [hne]

/-! ## Claim theorems -/

/-- C2: for every non-empty invoice text and any optional arguments,
`prepare` always returns an object with all five top-level keys (the Lean
embedding is a total function into `PreparedResult`, whose five fields are
exactly those keys — this models "never raises"), with `summary` a list of
exactly 3 strings and `nextSteps` a fixed ordered list of exactly 4
strings. -/
theorem claim_C2_prepare_shape (args : PrepareArgs) (nowMs : Int)
    (_h : args.invoiceText ≠ "") :
    (toolInvoicechaserPrepare args nowMs).summary.length = 3 ∧
      (toolInvoicechaserPrepare args nowMs).nextSteps = nextStepsList ∧
      nextStepsList.length = 4 :=
  ⟨rfl, rfl, rfl⟩

theorem claim_C2_prepare_shape_witness :
    ("Invoice 7" : String) ≠ "" ∧
      ((toolInvoicechaserPrepare ⟨"Invoice 7", none, none, none⟩ 0).summary.length = 3 ∧
        (toolInvoicechaserPrepare ⟨"Invoice 7", none, none, none⟩ 0).nextSteps = nextStepsList ∧
        nextStepsList.length = 4) :=
  ⟨by decide, claim_C2_prepare_shape ⟨"Invoice 7", none, none, none⟩ 0 (by decide)⟩

theorem safeDateFromIso_aligned {s : String} {v : Int}
    (h : safeDateFromIso s = some v) : ∃ k : Int, v = k * 86400000 := by
  unfold safeDateFromIso at h
  rw [Option.map_eq_some'] at h
  obtain ⟨t, _, hv⟩ := h
  exact ⟨daysFromCivil t.1 t.2.1 t.2.2, hv.symm⟩

/-- C3: for parseable date-only dates (both UTC midnights), if the due date
is strictly after today then `daysOverdue` is 0 (never negative), and if
the due date is exactly N calendar days before today then `daysOverdue` is
exactly N. -/
theorem claim_C3_days_overdue (args : PrepareArgs) (nowMs : Int)
    (ts ds : String) (T D : Int)
    (h1 : args.today = some ts) (h2 : ts ≠ "")
    (h3 : safeDateFromIso ts = some T)
    (h4 : parseDueDate args.invoiceText = some ds)
    (h5 : safeDateFromIso ds = some D) :
    (T < D → (toolInvoicechaserPrepare args nowMs).extracted.daysOverdue = some 0) ∧
    (∀ N : Nat, D + N * 86400000 = T →
      (toolInvoicechaserPrepare args nowMs).extracted.daysOverdue = some (N : Int)) := by
  have hds : (ds != "") = true := bne_iff_ne.mpr (parseDueDate_ne h4)
  have hts : (ts != "") = true := bne_iff_ne.mpr h2
  have hdo : (toolInvoicechaserPrepare args nowMs).extracted.daysOverdue =
      some (if daysBetween D T > 0 then daysBetween D T else 0) := by
    show daysOverdueOf args nowMs = _
    unfold daysOverdueOf resolveToday dueMsOf
    simp only [h1, h4, hts, hds, if_true, h3, h5]
  constructor
  · intro hlt
    rw [hdo]
    obtain ⟨a, rfl⟩ := safeDateFromIso_aligned h5
    obtain ⟨b, rfl⟩ := safeDateFromIso_aligned h3
    have hba : b < a :=
      (mul_lt_mul_right (by norm_num : (0 : Int) < 86400000)).mp hlt
    have hdb : daysBetween (a * 86400000) (b * 86400000) = b - a := by
      unfold daysBetween
      rw [show b * 86400000 - a * 86400000 = (b - a) * 86400000 by ring]
      exact Int.mul_fdiv_cancel _ (by norm_num)
    rw [hdb, if_neg (by omega)]
  · intro N hN
    rw [hdo]
    have hdb : daysBetween D T = (N : Int) := by
      unfold daysBetween
      rw [show T - D = (N : Int) * 86400000 by linarith]
      exact Int.mul_fdiv_cancel _ (by norm_num)
    rw [hdb]
    rcases Nat.eq_zero_or_pos N with h0 | hpos
    · subst h0
      simp
    · rw [if_pos (by exact_mod_cast hpos)]

/-- Two concrete instances: a future due date (Scenario C) clamps to 0, and
a due date exactly 15 days before today gives 15. -/
theorem claim_C3_days_overdue_witness :
    (toolInvoicechaserPrepare ⟨"Due 2025-12-01", none, none, some "2025-11-20"⟩ 0).extracted.daysOverdue = some 0 ∧
    (toolInvoicechaserPrepare ⟨"Due 2025-11-30", none, none, some "2025-12-15"⟩ 0).extracted.daysOverdue = some 15 := by
  constructor
  · have h := claim_C3_days_overdue
      ⟨"Due 2025-12-01", none, none, some "2025-11-20"⟩ 0 "2025-11-20" "2025-12-01"
      (daysFromCivil 2025 11 20 * 86400000) (daysFromCivil 2025 12 1 * 86400000)
      rfl (by decide) (by decide) (by decide) (by decide)
    exact h.1 (by decide)
  · have h := claim_C3_days_overdue
      ⟨"Due 2025-11-30", none, none, some "2025-12-15"⟩ 0 "2025-12-15" "2025-11-30"
      (daysFromCivil 2025 12 15 * 86400000) (daysFromCivil 2025 11 30 * 86400000)
      rfl (by decide) (by decide) (by decide) (by decide)
    exact h.2 15 (by decide)

/-- C4: when `today` is supplied (a non-empty string, as the schema
requires), the result does not depend on the wall clock (`nowMs`), so two
calls with identical arguments produce identical outputs; the embedding is
a pure function, modelling freedom from side effects. -/
theorem claim_C4_prepare_deterministic (args : PrepareArgs) (now1 now2 : Int)
    (s : String) (h : args.today = some s) (hs : s ≠ "") :
    toolInvoicechaserPrepare args now1 = toolInvoicechaserPrepare args now2 := by
  have hb : (s != "") = true := bne_iff_ne.mpr hs
  simp [toolInvoicechaserPrepare, summaryOf, daysOverdueOf, resolveToday, h, hb]

theorem claim_C4_prepare_deterministic_witness :
    toolInvoicechaserPrepare ⟨"Invoice 7 due 2025-12-01", none, none, some "2025-12-15"⟩ 0 =
      toolInvoicechaserPrepare ⟨"Invoice 7 due 2025-12-01", none, none, some "2025-12-15"⟩ 987654321 :=
  claim_C4_prepare_deterministic _ 0 987654321 "2025-12-15" rfl (by decide)

/-- C6: the output currency is the upper-casing of the precedence choice:
the caller-supplied `currency` argument when present, else the currency
detected in the text, else `"USD"`. -/
theorem claim_C6_currency_precedence (args : PrepareArgs) (nowMs : Int) :
    (∀ c, args.currency = some c →
      (toolInvoicechaserPrepare args nowMs).extracted.currency = jsToUpperCase c) ∧
    (args.currency = none →
      ∀ c, (parseMoney args.invoiceText).currency = some c →
        (toolInvoicechaserPrepare args nowMs).extracted.currency = jsToUpperCase c) ∧
    (args.currency = none → (parseMoney args.invoiceText).currency = none →
      (toolInvoicechaserPrepare args nowMs).extracted.currency = "USD") := by
  refine ⟨fun c hc => ?_, fun hn c hc => ?_, fun hn hc => ?_⟩ <;>
    show currencyOf args = _ <;>
    unfold currencyOf
  · rw [hc]; rfl
  · rw [hn, hc]; rfl
  · rw [hn, hc]; rfl

/-- Scenario D as a witness: explicit `"EUR"` argument wins over `"USD"` in
the text. -/
theorem claim_C6_currency_precedence_witness :
    (toolInvoicechaserPrepare ⟨"Total Due: USD 2,450.00", some "EUR", none, none⟩ 0).extracted.currency = "EUR" := by
  have h := (claim_C6_currency_precedence
    ⟨"Total Due: USD 2,450.00", some "EUR", none, none⟩ 0).1 "EUR" rfl
  rw [h]
  decide

/-- C7: the `tone` argument never alters the result — two calls differing
only in `tone` (any of the three literals or absent) return identical
outputs — and the `followUpEmails` object always carries all three
non-empty bodies (friendly, neutral, firm). -/
theorem claim_C7_tone_irrelevant (text : String) (cur : Option String)
    (td : Option String) (t1 t2 : Option Tone) (nowMs : Int) :
    toolInvoicechaserPrepare ⟨text, cur, t1, td⟩ nowMs =
      toolInvoicechaserPrepare ⟨text, cur, t2, td⟩ nowMs ∧
    (toolInvoicechaserPrepare ⟨text, cur, t1, td⟩ nowMs).followUpEmails.friendly ≠ "" ∧
    (toolInvoicechaserPrepare ⟨text, cur, t1, td⟩ nowMs).followUpEmails.neutral ≠ "" ∧
    (toolInvoicechaserPrepare ⟨text, cur, t1, td⟩ nowMs).followUpEmails.firm ≠ "" :=
  ⟨rfl, buildEmails_bodies _⟩

/-- C8: whenever the due-date extractor finds nothing, `daysOverdue` is
absent and the due-date red flag is present, for any reference date. -/
theorem claim_C8_no_due_date (args : PrepareArgs) (nowMs : Int)
    (h : parseDueDate args.invoiceText = none) :
    (toolInvoicechaserPrepare args nowMs).extracted.daysOverdue = none ∧
      "Due date not detected." ∈ (toolInvoicechaserPrepare args nowMs).redFlags := by
  constructor
  · show daysOverdueOf args nowMs = none
    unfold daysOverdueOf dueMsOf
    rw [h]
    cases resolveToday args.today nowMs <;> rfl
  · show _ ∈ redFlagsOf args.invoiceText
    unfold redFlagsOf
    rw [h]
    simp [strTruthy]

theorem truthyFlagChunk (o : Option String) (ho : ∀ s, o = some s → s ≠ "")
    (w : String) :
    (if strTruthy o then ([] : List String) else [w]) =
      (if o = none then [w] else []) := by
  cases o with
  | none => simp [strTruthy]
  | some s =>
    rw [strTruthy_some (ho s rfl)]
    simp

/-- C5: `redFlags` is exactly one fixed warning per absent field among
invoiceNumber, amount, dueDate, paymentTerms, concatenated in that fixed
order (the expression never consults the vendor field, so vendor absence is
never flagged); in particular, when all four are absent it is exactly the
four warnings in order. -/
theorem claim_C5_red_flags (args : PrepareArgs) (nowMs : Int) :
    ((toolInvoicechaserPrepare args nowMs).redFlags =
      (if (toolInvoicechaserPrepare args nowMs).extracted.invoiceNumber = none
        then ["Invoice number not detected."] else [])
      ++ ((if (toolInvoicechaserPrepare args nowMs).extracted.amount = none
        then ["Invoice amount not detected."] else [])
      ++ ((if (toolInvoicechaserPrepare args nowMs).extracted.dueDate = none
        then ["Due date not detected."] else [])
      ++ (if (toolInvoicechaserPrepare args nowMs).extracted.paymentTerms = none
        then ["Payment terms not detected."] else [])))) ∧
    ((toolInvoicechaserPrepare args nowMs).extracted.invoiceNumber = none →
      (toolInvoicechaserPrepare args nowMs).extracted.amount = none →
      (toolInvoicechaserPrepare args nowMs).extracted.dueDate = none →
      (toolInvoicechaserPrepare args nowMs).extracted.paymentTerms = none →
      (toolInvoicechaserPrepare args nowMs).redFlags =
        ["Invoice number not detected.", "Invoice amount not detected.",
         "Due date not detected.", "Payment terms not detected."]) := by
  have hfst : (toolInvoicechaserPrepare args nowMs).redFlags =
      (if (toolInvoicechaserPrepare args nowMs).extracted.invoiceNumber = none
        then ["Invoice number not detected."] else [])
      ++ ((if (toolInvoicechaserPrepare args nowMs).extracted.amount = none
        then ["Invoice amount not detected."] else [])
      ++ ((if (toolInvoicechaserPrepare args nowMs).extracted.dueDate = none
        then ["Due date not detected."] else [])
      ++ (if (toolInvoicechaserPrepare args nowMs).extracted.paymentTerms = none
        then ["Payment terms not detected."] else []))) := by
    show redFlagsOf args.invoiceText =
      (if parseInvoiceNumber args.invoiceText = none
        then ["Invoice number not detected."] else [])
      ++ ((if (parseMoney args.invoiceText).amount = none
        then ["Invoice amount not detected."] else [])
      ++ ((if parseDueDate args.invoiceText = none
        then ["Due date not detected."] else [])
      ++ (if parsePaymentTerms args.invoiceText = none
        then ["Payment terms not detected."] else [])))
    unfold redFlagsOf
    rw [truthyFlagChunk _ (fun s hs => parseInvoiceNumber_ne hs) _,
      truthyFlagChunk _ (fun s hs => parseMoney_amount_ne hs) _,
      truthyFlagChunk _ (fun s hs => parseDueDate_ne hs) _,
      truthyFlagChunk _ (fun s hs => parsePaymentTerms_ne hs) _,
      List.append_assoc, List.append_assoc]
  refine ⟨hfst, fun h1 h2 h3 h4 => ?_⟩
  rw [hfst, if_pos h1, if_pos h2, if_pos h3, if_pos h4]
  rfl

theorem claim_C5_red_flags_witness :
    (toolInvoicechaserPrepare ⟨"zzz", none, none, none⟩ 0).redFlags =
      ["Invoice number not detected.", "Invoice amount not detected.",
       "Due date not detected.", "Payment terms not detected."] :=
  (claim_C5_red_flags ⟨"zzz", none, none, none⟩ 0).2
    (by decide) (by decide) (by decide) (by decide)

/-- An ASCII lowercase letter. -/
def isAsciiLowerChar (c : Char) : Bool := decide (97 ≤ c.toNat ∧ c.toNat ≤ 122)

theorem upChar_not_lower (c : Char) : isAsciiLowerChar (upChar c) = false := by
  unfold upChar
  split
  · next hc =>
    obtain ⟨h1, h2⟩ := hc
    generalize hn : c.toNat = n at h1 h2 ⊢
    interval_cases n <;> decide
  · next hc =>
    simp only [isAsciiLowerChar]
    exact decide_eq_false hc

theorem data_eq_nil_imp {s : String} (h : s.data = []) : s = "" := by
  obtain ⟨d⟩ := s
  rw [show d = [] from h]

theorem jsToUpperCase_no_lower {s : String} {c : Char}
    (hc : c ∈ (jsToUpperCase s).data) : isAsciiLowerChar c = false := by
  obtain ⟨a, _, rfl⟩ := List.mem_map.mp hc
  exact upChar_not_lower a

theorem jsToUpperCase_ne_empty {s : String} (h : s ≠ "") : jsToUpperCase s ≠ "" := by
  apply mk_ne_empty
  intro hc
  rw [List.map_eq_nil_iff] at hc
  exact h (data_eq_nil_imp hc)

/-- C10: the output `currency` is never absent (it is a plain `String` field
of the result, produced on every code path) and is the upper-casing of the
winning value, so for a valid call (schema: a supplied `currency` argument
is non-empty) it is non-empty and contains no lowercase letter — even when
the caller supplies a lowercase code. -/
theorem claim_C10_currency_uppercase (args : PrepareArgs) (nowMs : Int)
    (h : ∀ c, args.currency = some c → c ≠ "") :
    (toolInvoicechaserPrepare args nowMs).extracted.currency ≠ "" ∧
      ∀ ch ∈ (toolInvoicechaserPrepare args nowMs).extracted.currency.data,
        isAsciiLowerChar ch = false := by
  constructor
  · show currencyOf args ≠ ""
    unfold currencyOf
    apply jsToUpperCase_ne_empty
    rcases hc : args.currency with _ | c
    · rcases hm : (parseMoney args.invoiceText).currency with _ | d
      · simp [hm]
      · simp only [Option.getD_none, Option.getD_some, hm]
        exact currencyCodes_ne_empty (parseMoney_currency_mem hm)
    · simp only [Option.getD_some]
      exact h c hc
  · intro ch hch
    exact jsToUpperCase_no_lower hch

theorem claim_C10_currency_uppercase_witness :
    (toolInvoicechaserPrepare ⟨"pay now", some "eur", none, none⟩ 0).extracted.currency ≠ "" ∧
      ∀ ch ∈ (toolInvoicechaserPrepare ⟨"pay now", some "eur", none, none⟩ 0).extracted.currency.data,
        isAsciiLowerChar ch = false :=
  claim_C10_currency_uppercase ⟨"pay now", some "eur", none, none⟩ 0
    (fun c hc => by cases hc; decide)

/-- Follows the spec's words (§3): `dueDate` is claimed to be a calendar
date normalized to `YYYY-MM-DD`; a string satisfies that exactly when it
parses as a valid `YYYY-MM-DD` calendar date. -/
def isCalendarDateYMD (s : String) : Bool := (parseIsoDateOnly s).isSome

/-- C9 is refuted on the code: the text "Pay by 2025-99-99" extracts
dueDate = "2025-99-99", which has the normalized shape but is not a
calendar date (month 99, day 99). -/
theorem claim_C9_counterexample :
    (toolInvoicechaserPrepare ⟨"Pay by 2025-99-99", none, none, none⟩ 0).extracted.dueDate
        = some "2025-99-99" ∧
      isCalendarDateYMD "2025-99-99" = false := by decide

/-- C9 (amended): every present field of the extraction result is a
non-empty string, and a present `dueDate` has the normalized `20YY-NN-NN`
digit shape of `YYYY-MM-DD` — but it need not be a valid calendar date. -/
theorem claim_C9_fields_normalized (args : PrepareArgs) (nowMs : Int) :
    (∀ v, (toolInvoicechaserPrepare args nowMs).extracted.vendor = some v → v ≠ "") ∧
    (∀ v, (toolInvoicechaserPrepare args nowMs).extracted.invoiceNumber = some v → v ≠ "") ∧
    (∀ v, (toolInvoicechaserPrepare args nowMs).extracted.amount = some v → v ≠ "") ∧
    (∀ v, (toolInvoicechaserPrepare args nowMs).extracted.paymentTerms = some v → v ≠ "") ∧
    (∀ v, (toolInvoicechaserPrepare args nowMs).extracted.dueDate = some v →
      dateShape v = true) :=
  ⟨fun _ hv => parseVendor_ne hv, fun _ hv => parseInvoiceNumber_ne hv,
    fun _ hv => parseMoney_amount_ne hv, fun _ hv => parsePaymentTerms_ne hv,
    fun _ hv => parseDueDate_shape hv⟩

theorem claim_C9_fields_normalized_witness :
    ("Acme Corp" : String) ≠ "" ∧ ("INV-9" : String) ≠ "" ∧
      ("9" : String) ≠ "" ∧ ("Net 30" : String) ≠ "" ∧
      dateShape "2025-11-30" = true := by
  have h := claim_C9_fields_normalized
    ⟨"Acme Corp\nInvoice INV-9 due 2025-11-30 Net 30", none, none, none⟩ 0
  exact ⟨h.1 _ (by decide), h.2.1 _ (by decide), h.2.2.1 _ (by decide),
    h.2.2.2.1 _ (by decide), h.2.2.2.2 _ (by decide)⟩

/-- The Scenario A invoice text of §8, its fragments in the listed order. -/
def scenarioAText : String :=
  "INVOICE #INV-1042\nDue Date: 2025-11-30\nTotal Due: USD 2,450.00\nPayment terms: Net 15"

def scenarioAArgs : PrepareArgs := ⟨scenarioAText, none, none, some "2025-12-15"⟩

/-- C1 is refuted on the code: for the Scenario A input the extracted
amount is "1042" — the digits inside the invoice number "INV-1042", the
first token the unanchored amount pattern meets — not "2450.00". -/
theorem claim_C1_counterexample :
    (toolInvoicechaserPrepare scenarioAArgs 0).extracted.amount = some "1042" ∧
      some ("1042" : String) ≠ some ("2450.00" : String) := by decide

/-- C1 (amended): Scenario A with `today = "2025-12-15"` yields
invoiceNumber "INV-1042", dueDate "2025-11-30", amount "1042" (not
"2450.00"), currency "USD", paymentTerms "Net 15", daysOverdue 15 and no
red flags. -/
theorem claim_C1_scenarioA :
    (toolInvoicechaserPrepare scenarioAArgs 0).extracted.invoiceNumber = some "INV-1042" ∧
    (toolInvoicechaserPrepare scenarioAArgs 0).extracted.dueDate = some "2025-11-30" ∧
    (toolInvoicechaserPrepare scenarioAArgs 0).extracted.amount = some "1042" ∧
    (toolInvoicechaserPrepare scenarioAArgs 0).extracted.currency = "USD" ∧
    (toolInvoicechaserPrepare scenarioAArgs 0).extracted.paymentTerms = some "Net 15" ∧
    (toolInvoicechaserPrepare scenarioAArgs 0).extracted.daysOverdue = some 15 ∧
    (toolInvoicechaserPrepare scenarioAArgs 0).redFlags = [] := by decide

theorem claim_C8_no_due_date_witness :
    (toolInvoicechaserPrepare ⟨"hello world", none, none, some "2025-12-15"⟩ 0).extracted.daysOverdue = none ∧
      "Due date not detected." ∈
        (toolInvoicechaserPrepare ⟨"hello world", none, none, some "2025-12-15"⟩ 0).redFlags :=
  claim_C8_no_due_date ⟨"hello world", none, none, some "2025-12-15"⟩ 0 (by decide)

end InvoiceChaser
